import Mathlib

set_option autoImplicit false

/-!
Shallow embedding of the AutoNewsVideo media assembly pipeline:
`src/autovideo/video_generator.py`, `src/autovideo/tts_generator.py`,
`src/autovideo/html_to_image.py` and `src/autovideo/autovideo.py`.

External processes (ffmpeg, ffprobe, the LLM, the TTS providers, the browser
renderer) are not part of the repository; each external invocation is modelled
by an outcome parameter, while the Python control flow around those calls is
translated line by line.  Durations (Python floats holding short decimals)
are modelled as rationals.
-/

namespace AutoNewsVideo

/-- Outcome of one `subprocess.run(['ffprobe', ...], check=True)` call as made by
`VideoGenerator._get_audio_duration` / `_get_video_duration`
(`video_generator.py` lines 160-186).  `success parsed` is a zero exit status
whose stdout either parses as a float (`parsed = some v`) or makes
`float(result.stdout.strip())` raise `ValueError` (`parsed = none`);
`exitFailure` is a nonzero exit status (`subprocess.CalledProcessError`), which
is also what probing a missing media file produces; `toolMissing` is the
`FileNotFoundError` raised when the `ffprobe` binary itself is absent. -/
inductive ProbeOutcome where
  | success (parsed : Option ℚ)
  | exitFailure
  | toolMissing
deriving DecidableEq, Repr

/-- Result of a duration probe that did not raise: the resolved value together
with whether `logger.warning` was called on the way (the fallback branches). -/
structure DurationResult where
  value : ℚ
  warned : Bool
deriving DecidableEq, Repr

/-- Translation of `VideoGenerator._get_audio_duration` (`video_generator.py`
lines 160-172).  The `except (subprocess.CalledProcessError, ValueError)`
clause turns a nonzero ffprobe exit or an unparsable stdout into the fallback
`5.0` plus a logged warning; a `FileNotFoundError` (ffprobe binary missing) is
not caught and propagates, modelled as `Except.error`. -/
def getAudioDuration : ProbeOutcome → Except Unit DurationResult
  | .success (some v) => .ok ⟨v, false⟩
  | .success none => .ok ⟨5, true⟩
  | .exitFailure => .ok ⟨5, true⟩
  | .toolMissing => .error ()

/-- Translation of `VideoGenerator._get_video_duration` (`video_generator.py`
lines 174-186); identical to the audio probe except for the fallback `10.0`. -/
def getVideoDuration : ProbeOutcome → Except Unit DurationResult
  | .success (some v) => .ok ⟨v, false⟩
  | .success none => .ok ⟨10, true⟩
  | .exitFailure => .ok ⟨10, true⟩
  | .toolMissing => .error ()

/-- Argument list built by `VideoGenerator.create_video_segment`
(`video_generator.py` lines 37-50) once the duration has been resolved.
`str(duration)` is modelled as `toString` of the rational. -/
def createVideoSegmentCommand (videoWidth videoHeight fps : Nat)
    (imagePath audioPath outputPath : String) (duration : ℚ) : List String :=
  ["ffmpeg", "-y",
   "-loop", "1",
   "-i", imagePath,
   "-i", audioPath,
   "-c:v", "libx264",
   "-c:a", "aac",
   "-b:a", "192k",
   "-shortest",
   "-vf", s!"scale={videoWidth}:{videoHeight},fps={fps}",
   "-t", toString duration,
   "-pix_fmt", "yuv420p",
   outputPath]

/-- Duration resolution at the top of `create_video_segment` (lines 34-35):
`if duration is None: duration = self._get_audio_duration(audio_path)`. -/
def resolveSegmentDuration (durationArg : Option ℚ) (audioProbe : ProbeOutcome) :
    Except Unit ℚ :=
  match durationArg with
  | some d => .ok d
  | none => (getAudioDuration audioProbe).map DurationResult.value

/-- Translation of `VideoGenerator.create_video_segment` (lines 32-52):
resolves the duration (probing the audio file when the argument is `None`) and
returns the ffmpeg argument list handed to `_run_ffmpeg_command`. -/
def createVideoSegment (videoWidth videoHeight fps : Nat)
    (imagePath audioPath outputPath : String)
    (durationArg : Option ℚ) (audioProbe : ProbeOutcome) :
    Except Unit (List String) :=
  (resolveSegmentDuration durationArg audioProbe).map
    (createVideoSegmentCommand videoWidth videoHeight fps imagePath audioPath outputPath)

/-- Fade-in frame count hard-coded in the filter literal of
`VideoGenerator.add_transition` (`video_generator.py` line 125):
`fade=in:0:30`. -/
def fadeInNbFrames : Nat := 30

/-- The filter string `f'fade=in:0:30,fade=out:st=\x7b...-1\x7d:d=1'` built at
line 125 of `video_generator.py`, as a function of the already computed
fade-out start time (the resolved video duration minus one second). -/
def fadeFilter (fadeOutStart : ℚ) : String :=
  s!"fade=in:0:{fadeInNbFrames},fade=out:st={fadeOutStart}:d=1"

/-- Translation of `VideoGenerator.add_transition` (`video_generator.py` lines
118-133).  For `transition_type == "fade"` the video duration is resolved by
`_get_video_duration(video_path)` (so a missing ffprobe binary propagates);
every other transition type takes the `else` branch, which builds a
container-level copy command and consults no probe. -/
def addTransition (videoProbe : ProbeOutcome) (videoPath outputPath : String)
    (transitionType : String) : Except Unit (List String) :=
  if transitionType = "fade" then
    (getVideoDuration videoProbe).map (fun r =>
      ["ffmpeg", "-y", "-i", videoPath,
       "-vf", fadeFilter (r.value - 1),
       "-c:a", "copy", outputPath])
  else
    .ok ["ffmpeg", "-y", "-i", videoPath, "-c", "copy", outputPath]

/-- Wall-clock length, in seconds, of a fade specified by the positional
`fade=type:start_frame:nb_frames` syntax.  Modelled from the external tool's
documented filter semantics (the repository only builds the string): the
positional form counts frames, so `nb_frames` frames last `nb_frames / fps`
seconds at a frame rate of `fps`. -/
def fadeFrameSpanSeconds (nbFrames : Nat) (fps : ℚ) : ℚ :=
  (nbFrames : ℚ) / fps

/-- C6: on every probe failure mode that the claim enumerates — a missing media
file or any other nonzero ffprobe exit (`exitFailure`), or unparsable probe
output (`success none`) — duration resolution does not raise:
`_get_audio_duration` returns exactly 5.0 seconds, `_get_video_duration`
returns exactly 10.0 seconds, and in both cases a warning is recorded. -/
theorem duration_probe_fallbacks (o : ProbeOutcome)
    (h : o = .success none ∨ o = .exitFailure) :
    getAudioDuration o = .ok ⟨5, true⟩ ∧ getVideoDuration o = .ok ⟨10, true⟩ := by
  rcases h with h | h <;> subst h <;> exact ⟨rfl, rfl⟩

/-- Witness for `duration_probe_fallbacks` at the concrete outcome of probing a
missing media file (nonzero ffprobe exit). -/
theorem duration_probe_fallbacks_witness :
    (ProbeOutcome.exitFailure = ProbeOutcome.success none ∨
      ProbeOutcome.exitFailure = ProbeOutcome.exitFailure) ∧
    (getAudioDuration .exitFailure = .ok ⟨5, true⟩ ∧
      getVideoDuration .exitFailure = .ok ⟨10, true⟩) :=
  ⟨Or.inr rfl, duration_probe_fallbacks .exitFailure (Or.inr rfl)⟩

/-- C7: when `create_video_segment` is called with `duration=None`, the duration
is resolved by probing the audio file via `_get_audio_duration`, and the ffmpeg
invocation it builds stops audio and video together at exactly the resolved
duration: the argument list carries `-t` immediately followed by the resolved
duration (positions 17 and 18) together with `-shortest`, so the cap handed to
the encoder is the resolved duration itself, not a raw image or audio length. -/
theorem segment_duration_resolution (w h fps : Nat) (img aud out : String)
    (p : ProbeOutcome) (d : ℚ)
    (hres : (getAudioDuration p).map DurationResult.value = .ok d) :
    resolveSegmentDuration none p = .ok d ∧
    createVideoSegment w h fps img aud out none p =
      .ok (createVideoSegmentCommand w h fps img aud out d) ∧
    (createVideoSegmentCommand w h fps img aud out d)[17]? = some "-t" ∧
    (createVideoSegmentCommand w h fps img aud out d)[18]? = some (toString d) ∧
    "-shortest" ∈ createVideoSegmentCommand w h fps img aud out d := by
  have hres₂ : resolveSegmentDuration none p = .ok d := hres
  refine ⟨hres₂, ?_, rfl, rfl, ?_⟩
  · simp only [createVideoSegment, hres₂, Except.map]
  · simp [createVideoSegmentCommand]

/-- Witness for `segment_duration_resolution`: a concrete call with the
duration argument omitted and a failing audio probe, resolving to 5.0. -/
theorem segment_duration_resolution_witness :
    ((getAudioDuration .exitFailure).map DurationResult.value = .ok 5) ∧
    (resolveSegmentDuration none .exitFailure = .ok 5 ∧
      createVideoSegment 1920 1080 30 "i.jpg" "a.mp3" "o.mp4" none .exitFailure =
        .ok (createVideoSegmentCommand 1920 1080 30 "i.jpg" "a.mp3" "o.mp4" 5) ∧
      (createVideoSegmentCommand 1920 1080 30 "i.jpg" "a.mp3" "o.mp4" 5)[17]? =
        some "-t" ∧
      (createVideoSegmentCommand 1920 1080 30 "i.jpg" "a.mp3" "o.mp4" 5)[18]? =
        some (toString (5 : ℚ)) ∧
      "-shortest" ∈ createVideoSegmentCommand 1920 1080 30 "i.jpg" "a.mp3" "o.mp4" 5) :=
  ⟨rfl, segment_duration_resolution 1920 1080 30 "i.jpg" "a.mp3" "o.mp4" .exitFailure 5 rfl⟩

/-- C8 counterexample: `add_transition` with kind `fade` on a video whose probed
duration is 10 seconds builds the filter `fade=in:0:30,...` — a fade-in of
`fadeInNbFrames = 30` frames, written once and for all with no dependence on
the configured fps — and 30 frames do not last one second at a configured fps
of 60: they last half a second.  So the fade-in is not exactly one second for
every configured fps, as the claim states. -/
theorem fade_in_not_one_second_at_60fps :
    addTransition (.success (some 10)) "v.mp4" "final.mp4" "fade" =
      .ok ["ffmpeg", "-y", "-i", "v.mp4", "-vf", fadeFilter 9, "-c:a", "copy",
        "final.mp4"] ∧
    fadeFrameSpanSeconds fadeInNbFrames 60 ≠ 1 := by
  have h9 : (10 : ℚ) - 1 = 9 := by norm_num
  constructor
  · simp [addTransition, getVideoDuration, Except.map, h9]
  · norm_num [fadeFrameSpanSeconds, fadeInNbFrames]

/-- C8 amended: for kind `fade` the audio stream is passed through unmodified
(`-c:a copy`) and the fade-out is time-based — it starts at the resolved total
video duration minus one second and lasts one second, hence ends exactly at
end-of-stream.  The fade-in, however, is the fixed frame count `fade=in:0:30`:
its wall-clock length is `30 / fps` seconds, which equals one second exactly
when the configured fps is 30 (the default), not for every configured fps. -/
theorem fade_transition_spec (p : ProbeOutcome) (r : DurationResult)
    (v o : String) (fps : ℚ)
    (hp : getVideoDuration p = .ok r) (hfps : fps ≠ 0) :
    addTransition p v o "fade" =
      .ok ["ffmpeg", "-y", "-i", v, "-vf", fadeFilter (r.value - 1),
        "-c:a", "copy", o] ∧
    (r.value - 1) + 1 = r.value ∧
    fadeFrameSpanSeconds fadeInNbFrames fps = 30 / fps ∧
    (fadeFrameSpanSeconds fadeInNbFrames fps = 1 ↔ fps = 30) := by
  have h30 : fadeFrameSpanSeconds fadeInNbFrames fps = 30 / fps := by
    norm_num [fadeFrameSpanSeconds, fadeInNbFrames]
  refine ⟨?_, by ring, h30, ?_⟩
  · simp [addTransition, hp, Except.map]
  · rw [h30, div_eq_one_iff_eq hfps]
    exact eq_comm

/-- Witness for `fade_transition_spec` at a successful 10-second probe and the
default configured fps of 30. -/
theorem fade_transition_spec_witness :
    getVideoDuration (.success (some 10)) = .ok ⟨10, false⟩ ∧ (30 : ℚ) ≠ 0 ∧
    (addTransition (.success (some 10)) "v.mp4" "o.mp4" "fade" =
        .ok ["ffmpeg", "-y", "-i", "v.mp4", "-vf",
          fadeFilter ((DurationResult.mk 10 false).value - 1), "-c:a", "copy",
          "o.mp4"] ∧
      ((DurationResult.mk 10 false).value - 1) + 1 = (DurationResult.mk 10 false).value ∧
      fadeFrameSpanSeconds fadeInNbFrames 30 = 30 / 30 ∧
      (fadeFrameSpanSeconds fadeInNbFrames 30 = 1 ↔ (30 : ℚ) = 30)) :=
  ⟨rfl, by norm_num,
    fade_transition_spec (.success (some 10)) ⟨10, false⟩ "v.mp4" "o.mp4" 30 rfl
      (by norm_num)⟩

/-- C9: `add_transition` with any transition type other than `fade` (including
arbitrary unrecognized strings) takes the `else` branch: it builds the
container-level copy command (`-c copy`, no re-encoding), consults no duration
probe, raises no validation error, and behaves exactly as kind `none` does. -/
theorem unknown_transition_copies (p : ProbeOutcome) (v o t : String)
    (ht : t ≠ "fade") :
    addTransition p v o t = .ok ["ffmpeg", "-y", "-i", v, "-c", "copy", o] ∧
    addTransition p v o t = addTransition p v o "none" := by
  have hn : ("none" : String) ≠ "fade" := by decide
  constructor <;> simp [addTransition, if_neg ht, if_neg hn]

/-- Witness for `unknown_transition_copies` with the concrete unrecognized
transition type `wipe`. -/
theorem unknown_transition_copies_witness :
    ("wipe" : String) ≠ "fade" ∧
    (addTransition .exitFailure "v.mp4" "o.mp4" "wipe" =
        .ok ["ffmpeg", "-y", "-i", "v.mp4", "-c", "copy", "o.mp4"] ∧
      addTransition .exitFailure "v.mp4" "o.mp4" "wipe" =
        addTransition .exitFailure "v.mp4" "o.mp4" "none") :=
  ⟨by decide, unknown_transition_copies .exitFailure "v.mp4" "o.mp4" "wipe" (by decide)⟩

/-- Temporary filesystem artifact created by one assembly run.
`tempfile.NamedTemporaryFile` guarantees fresh unique names and the
pre-transition intermediate lives under a distinct `output/video/` path, so
artifacts are identified by their role (and segment index) rather than by the
literal generated name. -/
inductive TempArtifact where
  /-- The `NamedTemporaryFile(suffix='.mp4', delete=False)` created for the
  zipped segment at position `i` (`video_generator.py` line 68). -/
  | segmentFile (i : Nat)
  /-- The concat manifest `NamedTemporaryFile(mode='w', suffix='.txt',
  delete=False)` (`video_generator.py` line 88). -/
  | concatManifest
  /-- The pre-transition intermediate written by `create_video_from_images`
  inside `create_final_video` (`video_generator.py` line 148). -/
  | intermediateVideo
deriving DecidableEq, Repr

/-- One iteration of the segment loop of `create_video_from_images`
(`video_generator.py` lines 67-72), over the position `i` of the zipped
`(image_path, audio_path, duration)` triple.  The state carries
`(temp_videos, created)`: the list of segment indices whose temp file was both
created and appended to `temp_videos`, and the list of every segment index
whose temp file was created on disk.  A raised exception (the encode of
segment `i` failing) is the `error` state, which later iterations pass
through untouched; note that the failing segment's temp file was already
created (line 68) but never appended to `temp_videos` (line 72). -/
def segmentStep (encodeOk : Nat → Bool)
    (st : Except (List Nat × List Nat) (List Nat × List Nat)) (i : Nat) :
    Except (List Nat × List Nat) (List Nat × List Nat) :=
  match st with
  | .error e => .error e
  | .ok (tempVideos, created) =>
    if encodeOk i then .ok (tempVideos ++ [i], created ++ [i])
    else .error (tempVideos, created ++ [i])

/-- The whole segment loop of `create_video_from_images` over the `n` zipped
triples, positions `0, ..., n-1` in order. -/
def makeSegments (encodeOk : Nat → Bool) (n : Nat) :
    Except (List Nat × List Nat) (List Nat × List Nat) :=
  (List.range n).foldl (segmentStep encodeOk) (.ok ([], []))

/-- Observable outcome of one `create_video_from_images` call. -/
structure AssembleRun where
  /-- The returned output path, or the propagated exception. -/
  result : Except Unit String
  /-- Temporary artifacts of this call still on disk when it returns or
  propagates. -/
  leftover : List TempArtifact
  /-- Whether the concat manifest file was ever created. -/
  manifestCreated : Bool
  /-- Whether an ffmpeg command writing `output_path` was executed and
  succeeded, i.e. whether the output artifact exists at the returned path. -/
  outputWritten : Bool
deriving Repr

/-- Translation of `VideoGenerator.create_video_from_images`
(`video_generator.py` lines 54-116).  `n` is the number of zipped
`(image, audio, duration)` triples; `encodeOk i` is whether the ffmpeg encode
of segment `i` succeeds; `concatOk` is whether the concatenation ffmpeg run
succeeds.  Control flow, branch for branch: the segment loop runs inside
`try`; its `finally` block (lines 112-116) unlinks exactly the files recorded
in `temp_videos`.  When `len(temp_videos) == 1` the single-segment re-encode
command is built (lines 77-85) but `_run_ffmpeg_command` is never called on it
— the call at line 106 sits inside the multi-segment `else` branch — so the
function returns `output_path` without writing anything there.  In the
multi-segment branch the manifest is created, the concat command runs, and
`os.unlink(concat_file.name)` (line 107) executes only when that run did not
raise. -/
def createVideoFromImages (encodeOk : Nat → Bool) (concatOk : Bool)
    (n : Nat) (outputPath : String) : AssembleRun :=
  match makeSegments encodeOk n with
  | .error (tempVideos, created) =>
    { result := .error ()
      leftover := (created.filter (fun i => !tempVideos.contains i)).map .segmentFile
      manifestCreated := false
      outputWritten := false }
  | .ok (tempVideos, created) =>
    if tempVideos.length == 1 then
      { result := .ok outputPath
        leftover := (created.filter (fun i => !tempVideos.contains i)).map .segmentFile
        manifestCreated := false
        outputWritten := false }
    else if concatOk then
      { result := .ok outputPath
        leftover := (created.filter (fun i => !tempVideos.contains i)).map .segmentFile
        manifestCreated := true
        outputWritten := true }
    else
      { result := .error ()
        leftover := (created.filter (fun i => !tempVideos.contains i)).map .segmentFile
          ++ [TempArtifact.concatManifest]
        manifestCreated := true
        outputWritten := false }

/-- Observable outcome of one `create_final_video` call. -/
structure FinalRun where
  /-- The returned final path, or the propagated exception. -/
  result : Except Unit String
  /-- Temporary artifacts still on disk when the call exits. -/
  leftover : List TempArtifact
deriving Repr

/-- Translation of `VideoGenerator.create_final_video` (`video_generator.py`
lines 135-158).  The overview segment is prepended to the `newsCount` news
segments, so the inner `create_video_from_images` call zips `1 + newsCount`
triples.  `transitionOk` is whether the `add_transition` ffmpeg run succeeds;
when it raises, the exception propagates and the cleanup lines 153-155 (the
`os.path.exists` guarded unlink of the pre-transition intermediate) never run.
On the success path the intermediate is unlinked if it exists, so it is never
left over there. -/
def createFinalVideo (encodeOk : Nat → Bool) (concatOk transitionOk : Bool)
    (newsCount : Nat) (outputPath : String) : FinalRun :=
  let ar := createVideoFromImages encodeOk concatOk (1 + newsCount) "intermediate"
  match ar.result with
  | .error _ => { result := .error (), leftover := ar.leftover }
  | .ok _ =>
    if transitionOk then
      { result := .ok outputPath, leftover := ar.leftover }
    else
      { result := .error ()
        leftover := ar.leftover ++
          (if ar.outputWritten then [TempArtifact.intermediateVideo] else []) }

theorem foldl_segmentStep_error (encodeOk : Nat → Bool) (l : List Nat)
    (e : List Nat × List Nat) :
    l.foldl (segmentStep encodeOk) (.error e) = .error e := by
  induction l with
  | nil => rfl
  | cons a l ih => simpa [segmentStep] using ih

/-- Loop invariant of the segment loop: started from a state whose two lists
agree, an `ok` final state still has `temp_videos = created`, while an `error`
final state has `created = temp_videos ++ [i]` for the failing position `i`. -/
theorem segmentLoop_spec (encodeOk : Nat → Bool) (l : List Nat) :
    ∀ tv tv₂ cr₂ : List Nat,
      (l.foldl (segmentStep encodeOk) (.ok (tv, tv)) = .ok (tv₂, cr₂) → tv₂ = cr₂) ∧
      (l.foldl (segmentStep encodeOk) (.ok (tv, tv)) = .error (tv₂, cr₂) →
        ∃ i, i ∈ l ∧ encodeOk i = false ∧ cr₂ = tv₂ ++ [i]) := by
  induction l with
  | nil =>
    intro tv tv₂ cr₂
    constructor
    · intro hok
      injection hok with h
      injection h with h1 h2
      exact h1.symm.trans h2
    · intro herr
      exact absurd herr (by simp)
  | cons a l ih =>
    intro tv tv₂ cr₂
    by_cases ha : encodeOk a
    · have hstep : segmentStep encodeOk (.ok (tv, tv)) a = .ok (tv ++ [a], tv ++ [a]) := by
        simp [segmentStep, ha]
      constructor
      · intro hok
        rw [List.foldl_cons, hstep] at hok
        exact (ih (tv ++ [a]) tv₂ cr₂).1 hok
      · intro herr
        rw [List.foldl_cons, hstep] at herr
        obtain ⟨i, hi, hfail, hcr⟩ := (ih (tv ++ [a]) tv₂ cr₂).2 herr
        exact ⟨i, List.mem_cons_of_mem a hi, hfail, hcr⟩
    · have hstep : segmentStep encodeOk (.ok (tv, tv)) a = .error (tv, tv ++ [a]) := by
        simp [segmentStep, ha]
      constructor
      · intro hok
        rw [List.foldl_cons, hstep, foldl_segmentStep_error] at hok
        exact absurd hok (by simp)
      · intro herr
        rw [List.foldl_cons, hstep, foldl_segmentStep_error] at herr
        injection herr with h
        injection h with h1 h2
        subst h1
        exact ⟨a, List.mem_cons_self a l, by simpa using ha, h2.symm⟩

theorem makeSegments_ok (encodeOk : Nat → Bool) (n : Nat) (tv cr : List Nat)
    (h : makeSegments encodeOk n = .ok (tv, cr)) : tv = cr :=
  (segmentLoop_spec encodeOk (List.range n) [] tv cr).1 h

theorem makeSegments_error (encodeOk : Nat → Bool) (n : Nat) (tv cr : List Nat)
    (h : makeSegments encodeOk n = .error (tv, cr)) :
    ∃ i, i < n ∧ encodeOk i = false ∧ cr = tv ++ [i] := by
  obtain ⟨i, hi, hfail, hcr⟩ := (segmentLoop_spec encodeOk (List.range n) [] tv cr).2 h
  exact ⟨i, List.mem_range.mp hi, hfail, hcr⟩

theorem filter_not_contains_self (l : List Nat) :
    (l.filter fun i => !l.contains i) = [] := by
  rw [List.filter_eq_nil_iff]
  intro a ha
  simp [ha]

/-- C2: calling `create_video_from_images` with exactly one (image, audio) pair
whose segment encode succeeds takes the single-segment branch: the claim is
right that the multi-segment concatenation path is never taken (no concat
manifest is created), but the direct re-encode the code intends — the comment
at line 76 and the command built at lines 77-85 — is never executed, because
the `_run_ffmpeg_command` call at line 106 sits inside the multi-segment
`else` branch only.  The function returns `output_path` with no output
artifact written there. -/
theorem single_segment_encode_skipped :
    createVideoFromImages (fun _ => true) true 1 "out.mp4" =
      { result := .ok "out.mp4", leftover := [], manifestCreated := false,
        outputWritten := false } := rfl

/-- C3 counterexample: two failure exits of `create_video_from_images` on which
temporary files survive the call.  With two segments whose encodes succeed but
whose concatenation fails, the concat manifest is still on disk when the
exception propagates (`os.unlink(concat_file.name)` at line 107 runs only
after a successful concat, and the `finally` block removes only
`temp_videos`).  With one segment whose encode fails, that segment's temp file
— created at line 68 before the encode, appended to `temp_videos` only after
it (line 72) — is still on disk when the exception propagates. -/
theorem assemble_cleanup_leaks :
    ((createVideoFromImages (fun _ => true) false 2 "out.mp4").result = .error () ∧
      (createVideoFromImages (fun _ => true) false 2 "out.mp4").leftover =
        [TempArtifact.concatManifest]) ∧
    ((createVideoFromImages (fun _ => false) true 1 "out.mp4").result = .error () ∧
      (createVideoFromImages (fun _ => false) true 1 "out.mp4").leftover =
        [TempArtifact.segmentFile 0]) :=
  ⟨⟨rfl, rfl⟩, rfl, rfl⟩

/-- C3 amended: every temp file recorded in `temp_videos` is deleted on every
exit path of `create_video_from_images`, and on a fully successful run nothing
is left over; but an artifact can survive the call in exactly two failure
cases — the concat manifest when the concatenation step fails, and the temp
file of the segment whose own encode failed. -/
theorem assemble_cleanup_leftovers (encodeOk : Nat → Bool) (concatOk : Bool)
    (n : Nat) (out : String) (a : TempArtifact)
    (ha : a ∈ (createVideoFromImages encodeOk concatOk n out).leftover) :
    (a = .concatManifest ∧ concatOk = false) ∨
    ∃ i, i < n ∧ encodeOk i = false ∧ a = .segmentFile i := by
  cases hms : makeSegments encodeOk n with
  | error e =>
    obtain ⟨tv, cr⟩ := e
    obtain ⟨i, hin, hfail, hcr⟩ := makeSegments_error encodeOk n tv cr hms
    subst hcr
    simp only [createVideoFromImages, hms, List.mem_map, List.mem_filter] at ha
    obtain ⟨j, ⟨hj, hnotin⟩, rfl⟩ := ha
    rcases List.mem_append.mp hj with hjtv | hji
    · exact absurd hjtv (by simpa using hnotin)
    · obtain rfl : j = i := by simpa using hji
      exact Or.inr ⟨j, hin, hfail, rfl⟩
  | ok s =>
    obtain ⟨tv, cr⟩ := s
    obtain rfl := makeSegments_ok encodeOk n tv cr hms
    simp only [createVideoFromImages, hms] at ha
    rw [filter_not_contains_self] at ha
    by_cases h1 : tv.length == 1
    · simp [h1] at ha
    · by_cases hc : concatOk
      · simp [h1, hc] at ha
      · simp only [h1, hc] at ha
        simp at ha
        exact Or.inl ⟨ha, by simpa using hc⟩

/-- Witness for `assemble_cleanup_leftovers`: the single-failing-segment run,
whose leftover temp file is that segment's. -/
theorem assemble_cleanup_leftovers_witness :
    TempArtifact.segmentFile 0 ∈
      (createVideoFromImages (fun _ => false) false 1 "out.mp4").leftover ∧
    ((TempArtifact.segmentFile 0 = TempArtifact.concatManifest ∧ false = false) ∨
      ∃ i, i < 1 ∧ (fun _ => (false : Bool)) i = false ∧
        TempArtifact.segmentFile 0 = TempArtifact.segmentFile i) := by
  have hm : TempArtifact.segmentFile 0 ∈
      (createVideoFromImages (fun _ => false) false 1 "out.mp4").leftover := by decide
  exact ⟨hm, assemble_cleanup_leftovers (fun _ => false) false 1 "out.mp4"
    (.segmentFile 0) hm⟩

theorem assemble_outputWritten_result (encodeOk : Nat → Bool) (concatOk : Bool)
    (n : Nat) (out : String)
    (hw : (createVideoFromImages encodeOk concatOk n out).outputWritten = true) :
    (createVideoFromImages encodeOk concatOk n out).result = .ok out := by
  cases hms : makeSegments encodeOk n with
  | error e =>
    obtain ⟨tv, cr⟩ := e
    simp [createVideoFromImages, hms] at hw
  | ok s =>
    obtain ⟨tv, cr⟩ := s
    simp only [createVideoFromImages, hms] at hw ⊢
    by_cases h1 : tv.length == 1
    · simp [h1] at hw
    · by_cases hc : concatOk
      · simp [h1, hc]
      · simp [h1, hc] at hw

theorem intermediate_not_in_assemble (encodeOk : Nat → Bool) (concatOk : Bool)
    (n : Nat) (out : String) :
    TempArtifact.intermediateVideo ∉
      (createVideoFromImages encodeOk concatOk n out).leftover := by
  intro ha
  rcases assemble_cleanup_leftovers encodeOk concatOk n out _ ha with ⟨h, _⟩ | ⟨i, _, _, h⟩
  · exact absurd h (by simp)
  · exact absurd h (by simp)

/-- C5 counterexample: one overview plus one news item, both segment encodes
and the concatenation succeed, but `add_transition` raises.  The exception
propagates out of `create_final_video` before lines 153-155 run, and the
pre-transition intermediate video is still on disk. -/
theorem transition_failure_leaks_intermediate :
    (createFinalVideo (fun _ => true) true false 1 "final.mp4").result = .error () ∧
    (createFinalVideo (fun _ => true) true false 1 "final.mp4").leftover =
      [TempArtifact.intermediateVideo] :=
  ⟨rfl, rfl⟩

/-- C5 amended: whenever the inner `create_video_from_images` call actually
wrote the pre-transition intermediate, `create_final_video` deletes it on the
success path (after the Transition Finisher returns), but when
`add_transition` raises, the intermediate is not deleted — the unlink at lines
153-155 is only reached on the success path, so cleanup on the failure path
does not happen. -/
theorem final_video_intermediate_cleanup (encodeOk : Nat → Bool)
    (concatOk : Bool) (nc : Nat) (out : String)
    (hw : (createVideoFromImages encodeOk concatOk (1 + nc)
        "intermediate").outputWritten = true) :
    (createFinalVideo encodeOk concatOk true nc out).result = .ok out ∧
    TempArtifact.intermediateVideo ∉
      (createFinalVideo encodeOk concatOk true nc out).leftover ∧
    (createFinalVideo encodeOk concatOk false nc out).result = .error () ∧
    TempArtifact.intermediateVideo ∈
      (createFinalVideo encodeOk concatOk false nc out).leftover := by
  have har := assemble_outputWritten_result encodeOk concatOk (1 + nc)
    "intermediate" hw
  refine ⟨?_, ?_, ?_, ?_⟩
  · simp [createFinalVideo, har]
  · simpa [createFinalVideo, har] using
      intermediate_not_in_assemble encodeOk concatOk (1 + nc) "intermediate"
  · simp [createFinalVideo, har]
  · simp [createFinalVideo, har, hw]

/-- Witness for `final_video_intermediate_cleanup`: one overview plus one news
item with all encodes and the concatenation succeeding. -/
theorem final_video_intermediate_cleanup_witness :
    (createVideoFromImages (fun _ => true) true (1 + 1)
        "intermediate").outputWritten = true ∧
    ((createFinalVideo (fun _ => true) true true 1 "final.mp4").result =
        .ok "final.mp4" ∧
      TempArtifact.intermediateVideo ∉
        (createFinalVideo (fun _ => true) true true 1 "final.mp4").leftover ∧
      (createFinalVideo (fun _ => true) true false 1 "final.mp4").result =
        .error () ∧
      TempArtifact.intermediateVideo ∈
        (createFinalVideo (fun _ => true) true false 1 "final.mp4").leftover) :=
  ⟨rfl, final_video_intermediate_cleanup (fun _ => true) true 1 "final.mp4" rfl⟩

/-- Generated media file paths, identified by role and 1-based item number:
every generated path embeds a fresh timestamp plus, for per-item files, the
item number (`news_item_i_...jpg`, `item_i_...mp3`), so role and index
determine the artifact. -/
inductive MediaPath where
  | overviewImage
  | newsItemImage (i : Nat)
  | summaryAudio
  | itemAudio (i : Nat)
deriving DecidableEq, Repr

/-- Keys of the dict returned by `TTSGenerator.generate_all_audio`: the Python
string `summary` and the strings `item_i`, the latter in bijection with the
item number `i`. -/
inductive AudioKey where
  | summary
  | item (i : Nat)
deriving DecidableEq, Repr

/-- The introduction text returned by `llm_client.generate_item_introduction`
for the news item at 0-based position `k`, abstracted by position. -/
def introText (k : Nat) : String := s!"introduction text {k}"

/-- The introduction loop of the orchestrator (`autovideo.py` lines 73-76 and
153-156) over a list of 0-based item positions.  The loop body has no
try/except, so the first failing `generate_item_introduction` call propagates;
`introOk k` is whether the call for position `k` succeeds. -/
def introTexts (introOk : Nat → Bool) : List Nat → Except Unit (List String)
  | [] => .ok []
  | k :: rest =>
    if introOk k then
      match introTexts introOk rest with
      | .error e => .error e
      | .ok ts => .ok (introText k :: ts)
    else .error ()

/-- The whole introduction loop over the `n` news items in input order. -/
def generateIntroductions (introOk : Nat → Bool) (n : Nat) :
    Except Unit (List String) :=
  introTexts introOk (List.range n)

/-- Translation of `HTMLToImageConverter.generate_all_news_images`
(`html_to_image.py` lines 89-106): iterates the items with
`enumerate(news_items, 1)`; a failing render is caught, logged and skipped
(`continue`), so the returned list simply lacks an entry for that item number.
`imageOk i` is whether the render for item number `i` succeeds. -/
def generateAllNewsImages (imageOk : Nat → Bool) (n : Nat) : List MediaPath :=
  (List.range n).filterMap (fun k =>
    if imageOk (k + 1) then some (MediaPath.newsItemImage (k + 1)) else none)

/-- Entries inserted by the per-item loop of `TTSGenerator.generate_all_audio`
(`tts_generator.py` lines 129-136): iterates `enumerate(introductions, 1)`;
each failing `generate_item_audio` call is caught, logged and skipped
(`continue`), so the key `item_i` is simply absent.  `itemAudioOk i` is
whether synthesis for item number `i` succeeds; `m` is the number of
introductions. -/
def itemAudioEntries (itemAudioOk : Nat → Bool) (m : Nat) :
    List (AudioKey × MediaPath) :=
  (List.range m).filterMap (fun k =>
    if itemAudioOk (k + 1) then
      some (AudioKey.item (k + 1), MediaPath.itemAudio (k + 1))
    else none)

/-- Translation of `TTSGenerator.generate_all_audio` (`tts_generator.py` lines
116-138): the summary audio is attempted first inside its own try/except (the
key `summary` is inserted only on success), then the per-item loop runs.
Every generator failure is caught and logged, so the function always returns
the dict — it never propagates an exception; failures manifest only as absent
keys. -/
def generateAllAudio (summaryAudioOk : Bool) (itemAudioOk : Nat → Bool)
    (m : Nat) : List (AudioKey × MediaPath) :=
  (if summaryAudioOk then [(AudioKey.summary, MediaPath.summaryAudio)] else []) ++
    itemAudioEntries itemAudioOk m

/-- Python dict subscript `d[k]`: the value stored under key `k`, or a raised
`KeyError k` when the key is absent (keys here are inserted at most once). -/
def dictGet (d : List (AudioKey × MediaPath)) (k : AudioKey) :
    Except AudioKey MediaPath :=
  match d with
  | [] => .error k
  | (k₂, v) :: rest => if k₂ = k then .ok v else dictGet rest k

/-- The list comprehension building `news_audios` in the orchestrator
(`autovideo.py` lines 101 and 181): it subscripts `audio_files` with the key
`item_` of each position in turn, left to right, and the first missing key
raises `KeyError`. -/
def lookupItems (d : List (AudioKey × MediaPath)) :
    List Nat → Except AudioKey (List MediaPath)
  | [] => .ok []
  | i :: rest =>
    match dictGet d (.item i) with
    | .error k => .error k
    | .ok v =>
      match lookupItems d rest with
      | .error k => .error k
      | .ok vs => .ok (v :: vs)

/-- `news_audios = [audio_files[...] for i in range(len(news_items))]` with the
keys `item_1 ... item_n`. -/
def buildNewsAudios (d : List (AudioKey × MediaPath)) (n : Nat) :
    Except AudioKey (List MediaPath) :=
  lookupItems d ((List.range n).map (fun k => k + 1))

/-- Success/failure outcomes of the external collaborator calls made during
one orchestrator run; per-item parameters are indexed the way the source
iterates them: `introOk` by 0-based position, `imageOk` and `itemAudioOk` by
1-based item number. -/
structure CollabOutcomes where
  summaryOk : Bool
  introOk : Nat → Bool
  overviewImageOk : Bool
  imageOk : Nat → Bool
  summaryAudioOk : Bool
  itemAudioOk : Nat → Bool

/-- The arguments handed to `video_generator.create_final_video` by the
orchestrator (`autovideo.py` lines 97-103 and 177-183), together with the
introduction list in scope there. -/
structure AssemblyInputs where
  overviewImage : MediaPath
  overviewAudio : MediaPath
  newsImages : List MediaPath
  newsAudios : List MediaPath
  introductions : List String
deriving DecidableEq, Repr

/-- Translation of `AutoVideoGenerator.generate_from_news_list`
(`autovideo.py` lines 133-190; `generate_news_video` lines 56-110 runs the
same flow after its `_process_news_data` stage), up to and including the
construction of the arguments of the `create_final_video` call.  An exception
from summary generation, from the introduction loop, from overview-image
rendering, or from either `audio_files` subscript propagates out of the
orchestrator (it is caught, logged and re-raised at lines 188-190), modelled
as `Except.error`; an `.ok` result means assembly was invoked with exactly
these parallel lists. -/
def generateFromNewsList (o : CollabOutcomes) (n : Nat) :
    Except Unit AssemblyInputs :=
  if o.summaryOk then
    match generateIntroductions o.introOk n with
    | .error _ => .error ()
    | .ok intros =>
      if o.overviewImageOk then
        let newsImages := generateAllNewsImages o.imageOk n
        let audioFiles := generateAllAudio o.summaryAudioOk o.itemAudioOk intros.length
        match dictGet audioFiles .summary with
        | .error _ => .error ()
        | .ok overviewAudio =>
          match buildNewsAudios audioFiles n with
          | .error _ => .error ()
          | .ok newsAudios =>
            .ok { overviewImage := .overviewImage, overviewAudio := overviewAudio,
                  newsImages := newsImages, newsAudios := newsAudios,
                  introductions := intros }
      else .error ()
  else .error ()

/-- The index-alignment property the spec asserts of the lists passed to
assembly: the three per-item parallel lists cover the same item numbers — in
particular they have equal lengths, and an item number carried by the audio
list is carried by the image list and vice versa. -/
def alignedInputs (inputs : AssemblyInputs) (n : Nat) : Prop :=
  inputs.newsImages.length = inputs.newsAudios.length ∧
  inputs.newsAudios.length = inputs.introductions.length ∧
  ∀ k, k < n → ((MediaPath.newsItemImage (k + 1) ∈ inputs.newsImages) ↔
    (MediaPath.itemAudio (k + 1) ∈ inputs.newsAudios))

theorem introTexts_error (introOk : Nat → Bool) (l : List Nat)
    (h : ∃ k ∈ l, introOk k = false) :
    introTexts introOk l = .error () := by
  induction l with
  | nil => simp at h
  | cons a rest ih =>
    obtain ⟨k, hk, hfail⟩ := h
    by_cases ha : introOk a
    · rcases List.mem_cons.mp hk with rfl | hk₂
      · exact absurd ha (by simp [hfail])
      · simp only [introTexts, if_pos ha, ih ⟨k, hk₂, hfail⟩]
    · simp only [introTexts, if_neg ha]

theorem introTexts_ok_length (introOk : Nat → Bool) (l : List Nat)
    (ts : List String) (h : introTexts introOk l = .ok ts) :
    ts.length = l.length := by
  induction l generalizing ts with
  | nil =>
    simp only [introTexts] at h
    cases h
    rfl
  | cons a rest ih =>
    simp only [introTexts] at h
    by_cases ha : introOk a
    · rw [if_pos ha] at h
      cases ht : introTexts introOk rest with
      | error e => rw [ht] at h; exact absurd h (by simp)
      | ok ws =>
        rw [ht] at h
        cases h
        simp [ih ws ht]
    · rw [if_neg ha] at h
      exact absurd h (by simp)

theorem dictGet_append (l₁ l₂ : List (AudioKey × MediaPath)) (k : AudioKey) :
    dictGet (l₁ ++ l₂) k =
      match dictGet l₁ k with
      | .ok v => .ok v
      | .error _ => dictGet l₂ k := by
  induction l₁ with
  | nil => rfl
  | cons e rest ih =>
    obtain ⟨k₂, v⟩ := e
    by_cases h : k₂ = k
    · simp [dictGet, h]
    · simp [dictGet, h, ih]

theorem itemAudioEntries_succ (itemAudioOk : Nat → Bool) (m : Nat) :
    itemAudioEntries itemAudioOk (m + 1) =
      itemAudioEntries itemAudioOk m ++
        (if itemAudioOk (m + 1) then
          [(AudioKey.item (m + 1), MediaPath.itemAudio (m + 1))]
        else []) := by
  rw [itemAudioEntries, List.range_succ, List.filterMap_append]
  rw [itemAudioEntries]
  congr 1
  by_cases h : itemAudioOk (m + 1) <;> simp [h]

theorem dictGet_itemAudioEntries_summary (itemAudioOk : Nat → Bool) (m : Nat) :
    dictGet (itemAudioEntries itemAudioOk m) .summary = .error .summary := by
  induction m with
  | zero => rfl
  | succ m ih =>
    rw [itemAudioEntries_succ, dictGet_append, ih]
    by_cases h : itemAudioOk (m + 1) <;> simp [h, dictGet]

theorem dictGet_itemAudioEntries (itemAudioOk : Nat → Bool) (m i : Nat) :
    dictGet (itemAudioEntries itemAudioOk m) (.item i) =
      if 1 ≤ i ∧ i ≤ m ∧ itemAudioOk i = true then .ok (.itemAudio i)
      else .error (.item i) := by
  induction m with
  | zero =>
    rw [if_neg (by rintro ⟨ha, hb, _⟩; omega)]
    rfl
  | succ m ih =>
    rw [itemAudioEntries_succ, dictGet_append, ih]
    by_cases hc : 1 ≤ i ∧ i ≤ m ∧ itemAudioOk i = true
    · have houter : 1 ≤ i ∧ i ≤ m + 1 ∧ itemAudioOk i = true :=
        ⟨hc.1, Nat.le_succ_of_le hc.2.1, hc.2.2⟩
      rw [if_pos hc, if_pos houter]
    · rw [if_neg hc]
      by_cases heq : i = m + 1
      · subst heq
        by_cases hok : itemAudioOk (m + 1)
        · have houter : 1 ≤ m + 1 ∧ m + 1 ≤ m + 1 ∧ itemAudioOk (m + 1) = true :=
            ⟨by omega, by omega, hok⟩
          rw [if_pos hok, if_pos houter]
          simp [dictGet]
        · have houter : ¬(1 ≤ m + 1 ∧ m + 1 ≤ m + 1 ∧ itemAudioOk (m + 1) = true) :=
            fun hcon => hok hcon.2.2
          rw [if_neg hok, if_neg houter]
          rfl
      · have houter : ¬(1 ≤ i ∧ i ≤ m + 1 ∧ itemAudioOk i = true) := by
          intro hcon
          exact hc ⟨hcon.1, by omega, hcon.2.2⟩
        rw [if_neg houter]
        by_cases hok : itemAudioOk (m + 1) <;>
          simp [hok, dictGet, heq, Ne.symm heq]

theorem dictGet_generateAllAudio_summary (summaryAudioOk : Bool)
    (itemAudioOk : Nat → Bool) (m : Nat) :
    dictGet (generateAllAudio summaryAudioOk itemAudioOk m) .summary =
      if summaryAudioOk then .ok .summaryAudio else .error .summary := by
  cases summaryAudioOk <;>
    simp [generateAllAudio, dictGet_append, dictGet,
      dictGet_itemAudioEntries_summary]

theorem dictGet_generateAllAudio_item (summaryAudioOk : Bool)
    (itemAudioOk : Nat → Bool) (m i : Nat) :
    dictGet (generateAllAudio summaryAudioOk itemAudioOk m) (.item i) =
      if 1 ≤ i ∧ i ≤ m ∧ itemAudioOk i = true then .ok (.itemAudio i)
      else .error (.item i) := by
  cases summaryAudioOk <;>
    simp [generateAllAudio, dictGet_append, dictGet, dictGet_itemAudioEntries]

theorem lookupItems_ok_forall (d : List (AudioKey × MediaPath)) (l : List Nat)
    (vs : List MediaPath) (h : lookupItems d l = .ok vs) :
    ∀ j ∈ l, ∃ v, dictGet d (.item j) = .ok v := by
  induction l generalizing vs with
  | nil => simp
  | cons j rest ih =>
    intro x hx
    simp only [lookupItems] at h
    cases hd : dictGet d (.item j) with
    | error k => rw [hd] at h; exact absurd h (by simp)
    | ok v =>
      rw [hd] at h
      cases ht : lookupItems d rest with
      | error k => rw [ht] at h; exact absurd h (by simp)
      | ok ws =>
        rcases List.mem_cons.mp hx with rfl | hx₂
        · exact ⟨v, hd⟩
        · exact ih ws ht x hx₂

theorem lookupItems_ok_eq (d : List (AudioKey × MediaPath)) (l : List Nat)
    (vs : List MediaPath) (h : lookupItems d l = .ok vs)
    (hval : ∀ j ∈ l, ∀ v, dictGet d (.item j) = .ok v → v = .itemAudio j) :
    vs = l.map (fun j => MediaPath.itemAudio j) := by
  induction l generalizing vs with
  | nil =>
    simp only [lookupItems] at h
    cases h
    rfl
  | cons j rest ih =>
    simp only [lookupItems] at h
    cases hd : dictGet d (.item j) with
    | error k => rw [hd] at h; exact absurd h (by simp)
    | ok v =>
      rw [hd] at h
      cases ht : lookupItems d rest with
      | error k => rw [ht] at h; exact absurd h (by simp)
      | ok ws =>
        rw [ht] at h
        cases h
        have hv := hval j (List.mem_cons_self j rest) v hd
        have hws := ih ws ht (fun x hx => hval x (List.mem_cons_of_mem j hx))
        simp [hv, hws]

theorem mem_generateAllNewsImages (imageOk : Nat → Bool) (n i : Nat) :
    MediaPath.newsItemImage i ∈ generateAllNewsImages imageOk n ↔
      1 ≤ i ∧ i ≤ n ∧ imageOk i = true := by
  simp only [generateAllNewsImages, List.mem_filterMap, List.mem_range]
  constructor
  · rintro ⟨k, hk, hf⟩
    by_cases h : imageOk (k + 1)
    · rw [if_pos h] at hf
      obtain rfl : k + 1 = i := by simpa using hf
      exact ⟨by omega, by omega, h⟩
    · rw [if_neg h] at hf
      exact absurd hf (by simp)
  · rintro ⟨h1, h2, h3⟩
    refine ⟨i - 1, by omega, ?_⟩
    have : i - 1 + 1 = i := by omega
    rw [this, if_pos h3]

/-- Dissection of a run that reached assembly: the summary succeeded, the
introduction loop returned the introduction list (of full length `n`), the
image list is exactly what `generate_all_news_images` produced, and the
`news_audios` comprehension succeeded on the audio dict built over the `n`
introductions. -/
theorem generateFromNewsList_ok (o : CollabOutcomes) (n : Nat)
    (inputs : AssemblyInputs)
    (h : generateFromNewsList o n = .ok inputs) :
    o.summaryOk = true ∧
    generateIntroductions o.introOk n = .ok inputs.introductions ∧
    inputs.introductions.length = n ∧
    inputs.newsImages = generateAllNewsImages o.imageOk n ∧
    buildNewsAudios (generateAllAudio o.summaryAudioOk o.itemAudioOk n) n =
      .ok inputs.newsAudios := by
  by_cases hs : o.summaryOk
  case neg => simp [generateFromNewsList, hs] at h
  case pos =>
  cases hint : generateIntroductions o.introOk n with
  | error e => simp [generateFromNewsList, hs, hint] at h
  | ok intros =>
    by_cases hov : o.overviewImageOk
    case neg => simp [generateFromNewsList, hs, hint, hov] at h
    case pos =>
    have hlen : intros.length = n := by
      simpa using introTexts_ok_length o.introOk (List.range n) intros hint
    simp only [generateFromNewsList, hs, hint, hov, if_true] at h
    rw [hlen] at h
    cases hsum : dictGet (generateAllAudio o.summaryAudioOk o.itemAudioOk n)
        .summary with
    | error k => rw [hsum] at h; exact absurd h (by simp)
    | ok ov =>
      rw [hsum] at h
      cases hbuild : buildNewsAudios
          (generateAllAudio o.summaryAudioOk o.itemAudioOk n) n with
      | error k => rw [hbuild] at h; exact absurd h (by simp)
      | ok ns =>
        rw [hbuild] at h
        injection h with h₂
        subst h₂
        exact ⟨hs, rfl, hlen, rfl, rfl⟩

/-- C10: `generate_all_audio` never propagates an exception — both generator
calls sit in try/except blocks that log and continue, so it always returns the
dict, and a failure of summary-audio or per-item audio generation manifests
only as the key `summary` or `item_i` being absent.  The subscripts the
orchestrator performs afterwards then raise `KeyError` exactly for the absent
keys and return the stored path for the present ones. -/
theorem audio_dict_lookup_spec (summaryAudioOk : Bool)
    (itemAudioOk : Nat → Bool) (m : Nat) :
    dictGet (generateAllAudio summaryAudioOk itemAudioOk m) .summary =
      (if summaryAudioOk then .ok .summaryAudio else .error .summary) ∧
    ∀ i, 1 ≤ i → i ≤ m →
      dictGet (generateAllAudio summaryAudioOk itemAudioOk m) (.item i) =
        (if itemAudioOk i then .ok (.itemAudio i) else .error (.item i)) := by
  refine ⟨dictGet_generateAllAudio_summary _ _ _, fun i h1 h2 => ?_⟩
  rw [dictGet_generateAllAudio_item]
  by_cases h3 : itemAudioOk i
  · rw [if_pos ⟨h1, h2, h3⟩, if_pos h3]
  · rw [if_neg (fun hcon => h3 hcon.2.2), if_neg h3]

/-- Witness for `audio_dict_lookup_spec`: summary audio succeeds, the single
item audio fails, so only the key `item_1` is absent and only its subscript
raises. -/
theorem audio_dict_lookup_spec_witness :
    (1 : Nat) ≤ 1 ∧ (1 : Nat) ≤ 1 ∧
    dictGet (generateAllAudio true (fun _ => false) 1) .summary =
      .ok .summaryAudio ∧
    dictGet (generateAllAudio true (fun _ => false) 1) (.item 1) =
      .error (.item 1) := by
  have h := audio_dict_lookup_spec true (fun _ => false) 1
  exact ⟨le_refl 1, le_refl 1, by simpa using h.1,
    by simpa using h.2 1 (le_refl 1) (le_refl 1)⟩

/-- Collaborator outcomes in which only the introduction generation for the
news item at 0-based position 1 fails. -/
def introFailRun : CollabOutcomes :=
  { summaryOk := true, introOk := fun k => k == 0, overviewImageOk := true,
    imageOk := fun _ => true, summaryAudioOk := true,
    itemAudioOk := fun _ => true }

/-- C4 counterexample: two news items; only the per-item introduction for the
item at position 1 fails, every other collaborator call succeeds, yet the
whole run aborts with the propagated exception — the orchestrator does not
continue with the remaining items, and assembly is never reached. -/
theorem introduction_failure_not_contained :
    generateFromNewsList introFailRun 2 = .error () := rfl

/-- C4 amended: a failure of per-item introduction generation for any one item
aborts the entire run: the loop at `autovideo.py` lines 73-76 / 153-156 has no
per-item try/except, so the exception propagates (it is logged and re-raised
at the top level) and the remaining items are not processed.  Downstream
parallel lists stay aligned only vacuously, because nothing reaches
assembly. -/
theorem introduction_failure_aborts (o : CollabOutcomes) (n k : Nat)
    (hk : k < n) (hfail : o.introOk k = false) :
    generateFromNewsList o n = .error () := by
  have hint : generateIntroductions o.introOk n = .error () :=
    introTexts_error o.introOk (List.range n) ⟨k, List.mem_range.mpr hk, hfail⟩
  by_cases hs : o.summaryOk
  · simp [generateFromNewsList, hs, hint]
  · simp [generateFromNewsList, hs]

/-- Witness for `introduction_failure_aborts` at the concrete failing run of
the C4 counterexample. -/
theorem introduction_failure_aborts_witness :
    1 < 2 ∧ introFailRun.introOk 1 = false ∧
    generateFromNewsList introFailRun 2 = .error () :=
  ⟨by omega, rfl, introduction_failure_aborts introFailRun 2 1 (by omega) rfl⟩

/-- Collaborator outcomes in which image generation fails for news item 1 and
every other collaborator call succeeds. -/
def imageFailRun : CollabOutcomes :=
  { summaryOk := true, introOk := fun _ => true, overviewImageOk := true,
    imageOk := fun i => i != 1, summaryAudioOk := true,
    itemAudioOk := fun _ => true }

/-- The assembly inputs actually produced by `imageFailRun` with two news
items: the image list lacks item 1 while the audio and introduction lists
still carry both items. -/
def misalignedInputs : AssemblyInputs :=
  { overviewImage := .overviewImage, overviewAudio := .summaryAudio,
    newsImages := [.newsItemImage 2],
    newsAudios := [.itemAudio 1, .itemAudio 2],
    introductions := [introText 0, introText 1] }

/-- C1 counterexample: with two news items, image generation failing for item
1 and audio generation succeeding for both, the run does reach assembly, but
index 1 was removed only from the image list: the audio list passed to
assembly still contains item 1 and the parallel lists have different lengths,
so an index present in one list is absent from another. -/
theorem image_drop_misaligns_assembly :
    generateFromNewsList imageFailRun 2 = .ok misalignedInputs ∧
    ¬ alignedInputs misalignedInputs 2 ∧
    MediaPath.itemAudio 1 ∈ misalignedInputs.newsAudios ∧
    MediaPath.newsItemImage 1 ∉ misalignedInputs.newsImages :=
  ⟨rfl, fun h => absurd h.1 (by decide), by decide, by decide⟩

/-- C1 amended: an audio-generation failure for item `i` aborts the run before
assembly (the `audio_files` subscript raises `KeyError`), so no lists reach
assembly that way; but whenever the run does reach assembly, the audio list
contains every item `1..n` and the introduction list has full length `n`,
while the image list contains exactly the items whose render succeeded — an
image-generation failure for item `i` therefore removes `i` from the image
list only, and the parallel lists reach assembly misaligned rather than
consistently pruned. -/
theorem content_failure_alignment (o : CollabOutcomes) (n i : Nat)
    (h1 : 1 ≤ i) (h2 : i ≤ n) :
    (o.itemAudioOk i = false → generateFromNewsList o n = .error ()) ∧
    (∀ inputs, generateFromNewsList o n = .ok inputs →
      inputs.newsAudios =
        (List.range n).map (fun k => MediaPath.itemAudio (k + 1)) ∧
      inputs.introductions.length = n ∧
      (MediaPath.newsItemImage i ∈ inputs.newsImages ↔ o.imageOk i = true)) := by
  have hmem : i ∈ (List.range n).map (fun k => k + 1) := by
    simp only [List.mem_map, List.mem_range]
    exact ⟨i - 1, by omega, by omega⟩
  constructor
  · intro hfail
    cases hres : generateFromNewsList o n with
    | error e => cases e; rfl
    | ok inputs =>
      exfalso
      obtain ⟨hs, hint, hlen, himg, hbuild⟩ :=
        generateFromNewsList_ok o n inputs hres
      obtain ⟨v, hv⟩ := lookupItems_ok_forall _ _ _ hbuild i hmem
      rw [dictGet_generateAllAudio_item,
        if_neg (fun hcon => by rw [hfail] at hcon; exact absurd hcon.2.2 (by simp))]
        at hv
      exact absurd hv (by simp)
  · intro inputs hok
    obtain ⟨hs, hint, hlen, himg, hbuild⟩ :=
      generateFromNewsList_ok o n inputs hok
    refine ⟨?_, hlen, ?_⟩
    · have hval : ∀ j ∈ (List.range n).map (fun k => k + 1), ∀ v,
          dictGet (generateAllAudio o.summaryAudioOk o.itemAudioOk n)
            (.item j) = .ok v → v = .itemAudio j := by
        intro j hj v hv
        rw [dictGet_generateAllAudio_item] at hv
        by_cases hc : 1 ≤ j ∧ j ≤ n ∧ o.itemAudioOk j = true
        · rw [if_pos hc] at hv
          injection hv with hv₂
          exact hv₂.symm
        · rw [if_neg hc] at hv
          exact absurd hv (by simp)
      have hmap := lookupItems_ok_eq _ _ _ hbuild hval
      rw [hmap, List.map_map]
      rfl
    · rw [himg, mem_generateAllNewsImages]
      simp [h1, h2]

/-- Witness for `content_failure_alignment`: a single news item whose audio
generation fails aborts the run. -/
theorem content_failure_alignment_witness :
    (1 : Nat) ≤ 1 ∧ (1 : Nat) ≤ 1 ∧
    (((CollabOutcomes.mk true (fun _ => true) true (fun _ => true) true
          (fun _ => false)).itemAudioOk 1 = false →
        generateFromNewsList
          (CollabOutcomes.mk true (fun _ => true) true (fun _ => true) true
            (fun _ => false)) 1 = .error ()) ∧
      (∀ inputs,
        generateFromNewsList
          (CollabOutcomes.mk true (fun _ => true) true (fun _ => true) true
            (fun _ => false)) 1 = .ok inputs →
        inputs.newsAudios =
          (List.range 1).map (fun k => MediaPath.itemAudio (k + 1)) ∧
        inputs.introductions.length = 1 ∧
        (MediaPath.newsItemImage 1 ∈ inputs.newsImages ↔
          (CollabOutcomes.mk true (fun _ => true) true (fun _ => true) true
            (fun _ => false)).imageOk 1 = true))) :=
  ⟨le_refl 1, le_refl 1,
    content_failure_alignment
      (CollabOutcomes.mk true (fun _ => true) true (fun _ => true) true
        (fun _ => false)) 1 1 (le_refl 1) (le_refl 1)⟩

end AutoNewsVideo
